import Mathlib

set_option maxHeartbeats 1000000

/- Shallow embedding of the MQTT ingestion pipeline of
`mqtt_receiver_mysql.py` (class `MQTTReceiver`), together with the
storage-row construction of `database_manager.py`
(`MySQLDataManager.insert_device_data`) and the alarm policy of
`alarm_config.py`.  Python dicts are association lists with
insertion-order-preserving last-write-wins assignment; Python `None`
is `PyVal.vNone`; Python exceptions appear as `Except Unit` or `Option`
failure values at the point where the source catches them. -/

/-- Dynamic Python value as it occurs in the receiver's data dictionaries:
integers, floats, strings, booleans, `None`, and nested JSON containers.
A finite float is carried as the exact numerator/denominator pair of the
decimal literal that produced it (the denominator a power of ten); the
non-finite floats `NaN`, `Infinity` and `-Infinity` that Python's `json`
also accepts are carried with denominator 0 and numerator 0, 1 and -1.  A
nested JSON array or object — which the receiver forwards but never
inspects field-wise, and which in Python never compares equal to 1 — is
carried as the exact source text it was decoded from. -/
inductive PyVal where
  | vInt (n : Int)
  | vFloat (num : Int) (den : Nat)
  | vStr (s : String)
  | vBool (b : Bool)
  | vNone
  | vNested (src : String)
  deriving DecidableEq, Repr

deriving instance DecidableEq for Except

/-- Python dict with string keys, as an insertion-ordered association list
with unique keys. -/
abbrev PyDict := List (String × PyVal)

/-- Python dict assignment `d[k] = v`: overwrite in place when the key
exists, otherwise append (insertion order preserved). -/
def dictSet : PyDict → String → PyVal → PyDict
  | [], k, v => [(k, v)]
  | (k0, v0) :: rest, k, v =>
      if k0 = k then (k0, v) :: rest else (k0, v0) :: dictSet rest k v

/-- Key lookup: `some` of the stored value (which may itself be `vNone`)
when the key is present, `none` when the key is absent. -/
def dictFind : PyDict → String → Option PyVal
  | [], _ => none
  | (k0, v0) :: rest, k => if k0 = k then some v0 else dictFind rest k

/-- Python `d.get(k, dflt)`: the stored value when the key is present (even
a stored `None`), otherwise the default. -/
def dictGetD (d : PyDict) (k : String) (dflt : PyVal) : PyVal :=
  (dictFind d k).getD dflt

/-- Continuation-byte check `0x80..0xBF` for strict UTF-8 decoding. -/
def isCont (b : Nat) : Bool := 128 ≤ b && b ≤ 191

/-- Strict UTF-8 decoding loop (fuel-indexed; the fuel starts at the number
of bytes and each step consumes at least one byte).  Mirrors Python
`bytes.decode("utf-8")`: rejects stray continuation bytes, truncated
sequences, overlong forms, surrogates and code points above U+10FFFF. -/
def utf8Aux : Nat → List Nat → List Char → Option (List Char)
  | _, [], acc => some acc
  | 0, _ :: _, _ => none
  | fuel + 1, b :: rest, acc =>
      if b ≤ 127 then utf8Aux fuel rest (Char.ofNat b :: acc)
      else if 194 ≤ b && b ≤ 223 then
        match rest with
        | c1 :: r =>
            if isCont c1 then
              utf8Aux fuel r (Char.ofNat ((b - 192) * 64 + (c1 - 128)) :: acc)
            else none
        | [] => none
      else if 224 ≤ b && b ≤ 239 then
        match rest with
        | c1 :: c2 :: r =>
            let lo1 := if b = 224 then 160 else 128
            let hi1 := if b = 237 then 159 else 191
            if (lo1 ≤ c1 && c1 ≤ hi1) && isCont c2 then
              utf8Aux fuel r
                (Char.ofNat ((b - 224) * 4096 + (c1 - 128) * 64 + (c2 - 128)) :: acc)
            else none
        | _ => none
      else if 240 ≤ b && b ≤ 244 then
        match rest with
        | c1 :: c2 :: c3 :: r =>
            let lo1 := if b = 240 then 144 else 128
            let hi1 := if b = 244 then 143 else 191
            if (lo1 ≤ c1 && c1 ≤ hi1) && (isCont c2 && isCont c3) then
              utf8Aux fuel r
                (Char.ofNat ((b - 240) * 262144 + (c1 - 128) * 4096 +
                  (c2 - 128) * 64 + (c3 - 128)) :: acc)
            else none
        | _ => none
      else none

/-- Python `payload.decode("utf-8")`: `none` models `UnicodeDecodeError`. -/
def utf8Decode (bs : List Nat) : Option String :=
  (utf8Aux bs.length bs []).map (fun cs => String.mk cs.reverse)

/-- Byte encoding of an ASCII string, for concrete test payloads. -/
def asciiBytes (s : String) : List Nat := s.data.map Char.toNat

/-- Helper for Python substring containment on character lists. -/
def strContainsAux : List Char → List Char → Bool
  | [], n => n.isEmpty
  | c :: cs, n => n.isPrefixOf (c :: cs) || strContainsAux cs n

/-- Python `needle in haystack` substring containment on strings. -/
def strContains (hay needle : String) : Bool :=
  strContainsAux hay.data needle.data

/-- Python `part.split(":", 1)` given that a colon occurs: the characters
before the first colon and the characters after it. -/
def splitFirstColon : List Char → List Char × List Char
  | [] => ([], [])
  | c :: cs =>
      if c = ':' then ([], cs)
      else
        let p := splitFirstColon cs
        (c :: p.1, p.2)

/-- Python `str.isdigit` on the ASCII wire vocabulary: true iff the string
is nonempty and every character is an ASCII digit. -/
def pyIsDigit (s : String) : Bool :=
  !s.data.isEmpty && s.data.all (fun c => 48 ≤ c.toNat && c.toNat ≤ 57)

/-- Numeric value of an ASCII digit string (Python `int` on a string that
passed `isdigit`). -/
def digitsVal (ds : List Char) : Nat :=
  ds.foldl (fun a c => a * 10 + (c.toNat - 48)) 0

/-- Count of dot characters in a string. -/
def dotCount (s : String) : Nat := (s.data.filter (fun c => c = '.')).length

/-- Splitting a character list on a single separator character (Python
`str.split(sep)` for a one-character separator; the accumulator carries the
current segment reversed). -/
def splitOnChar (sep : Char) : List Char → List Char → List (List Char)
  | [], acc => [acc.reverse]
  | c :: rest, acc =>
      if c = sep then acc.reverse :: splitOnChar sep rest []
      else splitOnChar sep rest (c :: acc)

/-- Exact numerator/denominator value of a decimal literal made of digits
and at most one dot. -/
def decValue (s : String) : Int × Nat :=
  match splitOnChar '.' s.data [] with
  | [ip] => ((digitsVal ip : Int), 1)
  | [ip, fp] =>
      (((digitsVal ip * 10 ^ fp.length + digitsVal fp : Nat) : Int), 10 ^ fp.length)
  | _ => (0, 1)

/-- Python `float(value)` on a value that already passed the source's guard
`value.replace(".", "").isdigit()` (so: digits and dots, at least one
digit).  The call succeeds exactly when at most one dot is present; `none`
models the `ValueError` that a literal such as `1.2.3` raises. -/
def pyFloatGuarded (v : String) : Option (Int × Nat) :=
  if dotCount v ≤ 1 then some (decValue v) else none

/-- Check that a character list begins with the given character. -/
def headIs (c : Char) : List Char → Bool
  | x :: _ => x = c
  | [] => false

/-- ASCII digit character check. -/
def isDigitCh (c : Char) : Bool := 48 ≤ c.toNat && c.toNat ≤ 57

/-- Opening curly brace character. -/
def obrace : Char := '\x7b'

/-- Closing curly brace character. -/
def cbrace : Char := '\x7d'

/-- JSON whitespace skipping. -/
def jskipWs : List Char → List Char
  | [] => []
  | c :: cs =>
      if c = ' ' || c = '\t' || c = '\n' || c = '\r' then jskipWs cs else c :: cs

/-- Hexadecimal digit value for `\uXXXX` escapes. -/
def hexVal (c : Char) : Option Nat :=
  if 48 ≤ c.toNat && c.toNat ≤ 57 then some (c.toNat - 48)
  else if 97 ≤ c.toNat && c.toNat ≤ 102 then some (c.toNat - 87)
  else if 65 ≤ c.toNat && c.toNat ≤ 70 then some (c.toNat - 55)
  else none

/-- Exactly four hexadecimal digits of a `\uXXXX` escape. -/
def parseHex4 : List Char → Option (Nat × List Char)
  | a :: b :: c :: d :: rest =>
      match hexVal a, hexVal b, hexVal c, hexVal d with
      | some x, some y, some z, some w =>
          some (x * 4096 + y * 256 + z * 16 + w, rest)
      | _, _, _, _ => none
  | _ => none

/-- Single-character JSON string escapes. -/
def escChar (c : Char) : Option Char :=
  if c = '"' then some '"'
  else if c = '\\' then some '\\'
  else if c = '/' then some '/'
  else if c = 'b' then some (Char.ofNat 8)
  else if c = 'f' then some (Char.ofNat 12)
  else if c = 'n' then some '\n'
  else if c = 'r' then some '\r'
  else if c = 't' then some '\t'
  else none

/-- Characters of a JSON string up to the closing quote, fuel-indexed
(every step consumes at least one input character).  Mirrors the string
handling of Python `json.loads`: the short escapes and `\uXXXX` are
decoded (a surrogate pair combines into one code point; a lone surrogate
is accepted by Python but has no Lean `Char` counterpart, so its character
falls back to `Char.ofNat`), and raw control characters below 0x20 are
rejected as in the default `strict=True` mode. -/
def jstrAux : Nat → List Char → Option (List Char × List Char)
  | 0, _ => none
  | _ + 1, [] => none
  | fuel + 1, c :: cs =>
      if c = '"' then some ([], cs)
      else if c = '\\' then
        match cs with
        | [] => none
        | e :: cs2 =>
            if e = 'u' then
              match parseHex4 cs2 with
              | none => none
              | some (n1, cs3) =>
                  if 55296 ≤ n1 && n1 ≤ 56319 then
                    match cs3 with
                    | '\\' :: 'u' :: cs4 =>
                        match parseHex4 cs4 with
                        | some (n2, cs5) =>
                            if 56320 ≤ n2 && n2 ≤ 57343 then
                              (jstrAux fuel cs5).map (fun p =>
                                (Char.ofNat (65536 + (n1 - 55296) * 1024 +
                                  (n2 - 56320)) :: p.1, p.2))
                            else
                              (jstrAux fuel cs3).map (fun p =>
                                (Char.ofNat n1 :: p.1, p.2))
                        | none =>
                            (jstrAux fuel cs3).map (fun p =>
                              (Char.ofNat n1 :: p.1, p.2))
                    | _ =>
                        (jstrAux fuel cs3).map (fun p =>
                          (Char.ofNat n1 :: p.1, p.2))
                  else
                    (jstrAux fuel cs3).map (fun p => (Char.ofNat n1 :: p.1, p.2))
            else
              match escChar e with
              | some ce => (jstrAux fuel cs2).map (fun p => (ce :: p.1, p.2))
              | none => none
      else if c.toNat < 32 then none
      else (jstrAux fuel cs).map (fun p => (c :: p.1, p.2))

/-- JSON string literal starting at an opening quote. -/
def parseJStr (cs : List Char) : Option (String × List Char) :=
  match cs with
  | c :: rest =>
      if c = '"' then
        (jstrAux (rest.length + 1) rest).map (fun p => (String.mk p.1, p.2))
      else none
  | [] => none

/-- JSON number exactly per the grammar Python `json.loads` uses: optional
minus, integer part without leading zeros, optional fraction, optional
exponent.  A literal with neither fraction nor exponent decodes to a
Python `int`; anything else decodes to a float carried as an exact
numerator/denominator pair. -/
def parseJNum (cs : List Char) : Option (PyVal × List Char) :=
  let neg := headIs '-' cs
  let cs1 := if neg then cs.drop 1 else cs
  let ip := cs1.takeWhile isDigitCh
  if ip.isEmpty then none
  else if 2 ≤ ip.length && headIs '0' ip then none
  else
    let r1 := cs1.drop ip.length
    let fr : Option (List Char × List Char) :=
      match r1 with
      | '.' :: r2 =>
          let fp := r2.takeWhile isDigitCh
          if fp.isEmpty then none else some (fp, r2.drop fp.length)
      | _ => some ([], r1)
    match fr with
    | none => none
    | some (fp, r2) =>
        let ex : Option (Bool × List Char × List Char) :=
          match r2 with
          | e :: r3 =>
              if e = 'e' || e = 'E' then
                let sgn : Bool × List Char :=
                  match r3 with
                  | '+' :: r5 => (false, r5)
                  | '-' :: r5 => (true, r5)
                  | _ => (false, r3)
                let ep := sgn.2.takeWhile isDigitCh
                if ep.isEmpty then none
                else some (sgn.1, ep, sgn.2.drop ep.length)
              else some (false, [], r2)
          | [] => some (false, [], r2)
        match ex with
        | none => none
        | some (eneg, ep, rest) =>
            if fp.isEmpty && ep.isEmpty then
              let n : Int := (digitsVal ip : Int)
              some (PyVal.vInt (if neg then -n else n), rest)
            else
              let m : Nat := digitsVal ip * 10 ^ fp.length + digitsVal fp
              let e : Nat := digitsVal ep
              let nd : Int × Nat :=
                if eneg then (((m : Nat) : Int), 10 ^ fp.length * 10 ^ e)
                else (((m * 10 ^ e : Nat) : Int), 10 ^ fp.length)
              some (PyVal.vFloat (if neg then -nd.1 else nd.1) nd.2, rest)

/-- Modes of the recursive JSON validator: one value, the element-comma
loop of an array, or the pair-comma loop of an object. -/
inductive JSkipMode where
  | val
  | arrNext
  | objNext

/-- Recursive validator that consumes exactly one JSON value (fuel-indexed;
the fuel bounds the nesting recursion and every level consumes input).  It
accepts what Python `json.loads` accepts — nested arrays and objects,
strings with escapes, numbers with exponents, `true`/`false`/`null` and
the Python extensions `NaN`/`Infinity`/`-Infinity` — and returns the input
remaining after the value. -/
def jskip : Nat → JSkipMode → List Char → Option (List Char)
  | 0, _, _ => none
  | fuel + 1, .val, cs =>
      match cs with
      | [] => none
      | c :: cs2 =>
          if c = '"' then (parseJStr cs).map (fun p => p.2)
          else if c = '[' then
            match jskipWs cs2 with
            | ']' :: cs3 => some cs3
            | cs3 => jskip fuel .arrNext cs3
          else if c = obrace then
            match jskipWs cs2 with
            | c2 :: cs3 =>
                if c2 = cbrace then some cs3 else jskip fuel .objNext (c2 :: cs3)
            | [] => none
          else if "true".data.isPrefixOf cs then some (cs.drop 4)
          else if "false".data.isPrefixOf cs then some (cs.drop 5)
          else if "null".data.isPrefixOf cs then some (cs.drop 4)
          else if "NaN".data.isPrefixOf cs then some (cs.drop 3)
          else if "Infinity".data.isPrefixOf cs then some (cs.drop 8)
          else if "-Infinity".data.isPrefixOf cs then some (cs.drop 9)
          else if c = '-' || isDigitCh c then (parseJNum cs).map (fun p => p.2)
          else none
  | fuel + 1, .arrNext, cs =>
      match jskip fuel .val cs with
      | none => none
      | some rest =>
          match jskipWs rest with
          | ',' :: cs2 => jskip fuel .arrNext (jskipWs cs2)
          | ']' :: cs2 => some cs2
          | _ => none
  | fuel + 1, .objNext, cs =>
      match parseJStr cs with
      | none => none
      | some (_, rest) =>
          match jskipWs rest with
          | ':' :: cs2 =>
              match jskip fuel .val (jskipWs cs2) with
              | none => none
              | some rest2 =>
                  match jskipWs rest2 with
                  | ',' :: cs3 => jskip fuel .objNext (jskipWs cs3)
                  | c :: cs3 => if c = cbrace then some cs3 else none
                  | [] => none
          | _ => none

/-- One JSON value of the decoded top-level object: scalar values decode
to their exact Python counterparts; a nested array or object — which the
receiver never inspects field-wise — is validated in full by `jskip` and
carried as the exact source text it was decoded from. -/
def parseJVal (fuel : Nat) (cs : List Char) : Option (PyVal × List Char) :=
  match cs with
  | [] => none
  | c :: _ =>
      if c = '"' then (parseJStr cs).map (fun p => (PyVal.vStr p.1, p.2))
      else if c = '[' || c = obrace then
        match jskip fuel .val cs with
        | none => none
        | some rest =>
            some (PyVal.vNested (String.mk (cs.take (cs.length - rest.length))),
              rest)
      else if "true".data.isPrefixOf cs then some (PyVal.vBool true, cs.drop 4)
      else if "false".data.isPrefixOf cs then some (PyVal.vBool false, cs.drop 5)
      else if "null".data.isPrefixOf cs then some (PyVal.vNone, cs.drop 4)
      else if "NaN".data.isPrefixOf cs then some (PyVal.vFloat 0 0, cs.drop 3)
      else if "Infinity".data.isPrefixOf cs then
        some (PyVal.vFloat 1 0, cs.drop 8)
      else if "-Infinity".data.isPrefixOf cs then
        some (PyVal.vFloat (-1) 0, cs.drop 9)
      else if c = '-' || isDigitCh c then parseJNum cs
      else none

/-- Members of a JSON object after the opening brace (fuel-indexed loop;
duplicate keys behave as in Python `json.loads`: the last one wins). -/
def parseJMembers : Nat → PyDict → List Char → Option (PyDict × List Char)
  | 0, _, _ => none
  | fuel + 1, d, cs =>
      match parseJStr (jskipWs cs) with
      | none => none
      | some (k, cs1) =>
          match jskipWs cs1 with
          | ':' :: cs2 =>
              match parseJVal fuel (jskipWs cs2) with
              | none => none
              | some (v, cs3) =>
                  match jskipWs cs3 with
                  | ',' :: cs4 => parseJMembers fuel (dictSet d k v) cs4
                  | c :: cs4 => if c = cbrace then some (dictSet d k v, cs4) else none
                  | [] => none
          | _ => none

/-- Python `json.loads` as `parse_data` invokes it, on payloads whose
first non-whitespace character is an opening brace: the top-level value is
an object decoded into a dict, scalar members decoded exactly and nested
container members carried as source text; `none` models
`json.JSONDecodeError` and every other decode exception. -/
def jsonLoads (payload : String) : Option PyDict :=
  match jskipWs payload.data with
  | c :: cs =>
      if c = obrace then
        match jskipWs cs with
        | c2 :: cs2 =>
            if c2 = cbrace then
              if (jskipWs cs2).isEmpty then some [] else none
            else
              match parseJMembers (4 * payload.length + 16) [] cs with
              | some (d, rest) => if (jskipWs rest).isEmpty then some d else none
              | none => none
        | [] => none
      else none
  | [] => none

/-- Python whitespace class used by `str.strip`. -/
def isPyWs (c : Char) : Bool :=
  c = ' ' || c = '\t' || c = '\n' || c = '\r' || c = '\x0c' || c = '\x0b'

/-- Python `str.strip()`: remove leading and trailing whitespace. -/
def pyStrip (cs : List Char) : List Char :=
  ((cs.dropWhile isPyWs).reverse.dropWhile isPyWs).reverse

/-- Python `str.lower()` on the ASCII key vocabulary. -/
def lowerAscii (cs : List Char) : List Char := cs.map Char.toLower

/-- Python `"," + " "` separator split `payload.split(", ")`: non-overlapping
left-to-right cuts at each comma-space pair (the accumulator carries the
current segment reversed). -/
def splitCommaSpace : List Char → List Char → List (List Char)
  | [], acc => [acc.reverse]
  | [c], acc => [(c :: acc).reverse]
  | c1 :: c2 :: rest, acc =>
      if c1 = ',' && c2 = ' ' then acc.reverse :: splitCommaSpace rest []
      else splitCommaSpace (c2 :: rest) (c1 :: acc)

/-- Python `":" in part` on a token. -/
def hasColon (part : String) : Bool := part.data.any (fun c => c = ':')

/-- Trimmed, lowercased key of a `KEY:VALUE` token (`none` when the token
has no colon and the source skips it). -/
def tokenKey (part : String) : Option String :=
  if hasColon part then
    some (String.mk (lowerAscii (pyStrip (splitFirstColon part.data).1)))
  else none

/-- Trimmed value of a `KEY:VALUE` token. -/
def tokenVal (part : String) : Option String :=
  if hasColon part then some (String.mk (pyStrip (splitFirstColon part.data).2))
  else none

/-- Keys the delimited parser recognizes with a dedicated branch. -/
def recognizedKeys : List String :=
  ["raw", "rms", "th", "state", "move", "connected", "alarm"]

/-- Destination key of the `N/A` branch of `parse_data`:
`key + "_value"` when the key is raw, rms or th, otherwise the key itself. -/
def naTarget (key : String) : String :=
  if key = "raw" || key = "rms" || key = "th" then key ++ "_value" else key

/-- The source idiom `int(value) if value.isdigit() else None`. -/
def intOrNone (value : String) : PyVal :=
  if pyIsDigit value then PyVal.vInt (digitsVal value.data : Int) else PyVal.vNone

/-- The source idiom `int(value) if value.isdigit() else d` used for the
connected and alarm keys. -/
def intOrD (value : String) (d : Int) : PyVal :=
  if pyIsDigit value then PyVal.vInt (digitsVal value.data : Int) else PyVal.vInt d

/-- The source idiom for the rms and th keys:
`float(value) if value.replace(".", "").isdigit() else None`, where the
`float` call itself may raise. -/
def floatOrNone (value : String) : Except Unit PyVal :=
  if pyIsDigit (String.mk (value.data.filter (fun c => c ≠ '.'))) then
    match pyFloatGuarded value with
    | some p => .ok (PyVal.vFloat p.1 p.2)
    | none => .error ()
  else .ok PyVal.vNone

/-- Effect of one delimited token, straight from the branch ladder of
`MQTTReceiver.parse_data`: `.error ()` is a Python exception escaping the
token (only `float` on a guarded multi-dot literal), `.ok none` a skipped
token, `.ok (some (k, v))` the single dict assignment the branch performs. -/
def tokenEffect (part : String) : Except Unit (Option (String × PyVal)) :=
  match tokenKey part, tokenVal part with
  | some key, some value =>
      if value = "N/A" then .ok (some (naTarget key, PyVal.vNone))
      else if key = "raw" then .ok (some ("raw_value", intOrNone value))
      else if key = "rms" then (floatOrNone value).map (fun v => some ("rms_value", v))
      else if key = "th" then
        (floatOrNone value).map (fun v => some ("threshold_value", v))
      else if key = "state" then .ok (some ("state", intOrNone value))
      else if key = "move" then .ok (some ("movement_count", intOrNone value))
      else if key = "connected" then .ok (some ("is_connected", intOrD value 1))
      else if key = "alarm" then .ok (some ("is_alarm", intOrD value 0))
      else .ok none
  | _, _ => .ok none

/-- Left-to-right processing of the token list, propagating an escaping
exception. -/
def foldTokens : PyDict → List String → Except Unit PyDict
  | d, [] => .ok d
  | d, p :: ps =>
      match tokenEffect p with
      | .error e => .error e
      | .ok none => foldTokens d ps
      | .ok (some kv) => foldTokens (dictSet d kv.1 kv.2) ps

/-- `MQTTReceiver.parse_data`: the JSON branch when the payload starts with
an opening brace, otherwise the delimited `KEY:VALUE` branch over
`payload.split(", ")`; `none` is the `return None` of the surrounding
`except` clause. -/
def parse_data (payload : String) : Option PyDict :=
  if headIs obrace payload.data then jsonLoads payload
  else
    match foldTokens [] ((splitCommaSpace payload.data []).map String.mk) with
    | .ok d => some d
    | .error _ => none

/-- Python truthiness of the parse result as used by `handle_message`
(`if not data_dict`): `None` and the empty dict are both falsy. -/
def pyTruthy : Option PyDict → Bool
  | some (_ :: _) => true
  | _ => false

/-- Attempt to match the regex `sleep_blanket/([^/]+)/data` at the head of
the character list; the capture group is greedy and cannot cross a slash,
so it is the maximal slash-free run after the literal prefix. -/
def matchPatAt (cs : List Char) : Option String :=
  if "sleep_blanket/".data.isPrefixOf cs then
    let rest := cs.drop 14
    let seg := rest.takeWhile (fun c => c ≠ '/')
    if seg.isEmpty then none
    else if "/data".data.isPrefixOf (rest.drop seg.length) then some (String.mk seg)
    else none
  else none

/-- Python `re.search` for `sleep_blanket/([^/]+)/data`: the leftmost
position at which the pattern matches, returning the captured segment. -/
def searchPat : List Char → Option String
  | [] => none
  | c :: cs =>
      match matchPatAt (c :: cs) with
      | some seg => some seg
      | none => searchPat cs

/-- `MQTTReceiver.extract_device_id`: regex search for the data-topic
pattern first, then the two substring-containment sentinel rules. -/
def extract_device_id (topic : String) : Option String :=
  match searchPat topic.data with
  | some seg => some seg
  | none =>
      if strContains topic "device/sleep_blanket" then some "GENERAL_DEVICE"
      else if strContains topic "sensors/sleep_monitor" then some "MONITOR_SENSOR"
      else none

/-- Alarm policy fields consumed by the receiver (`alarm_config.py`). -/
structure AlarmConfig where
  enable_device_alarm : Bool
  silent_mode : Bool
  ignored_devices : List String
  device_alarm_cooldown : Nat
  deriving DecidableEq, Repr

/-- The repository's `ALARM_CONFIG`: the fields the receiver reads, plus
`device_alarm_cooldown`, which `alarm_config.py` declares (60 seconds) but
which `mqtt_receiver_mysql.py` never reads. -/
def ALARM_CONFIG : AlarmConfig :=
  { enable_device_alarm := true,
    silent_mode := true,
    ignored_devices := ["SB067"],
    device_alarm_cooldown := 60 }

/-- `MQTTReceiver.handle_alarm`: yields the device id of the warning-level
alarm notification it logs, or `none` when the policy filters the alarm out
(alarms disabled, or device on the ignore list).  The source keeps no
per-device timing state and never consults `device_alarm_cooldown`. -/
def handle_alarm (cfg : AlarmConfig) (device_id : String) : Option String :=
  if !cfg.enable_device_alarm then none
  else if device_id ∈ cfg.ignored_devices then none
  else some device_id

/-- Python `x == 1` on the dynamic values in play (in Python `True == 1`
and `1.0 == 1` both hold). -/
def pyEqOne : PyVal → Bool
  | .vInt n => n == 1
  | .vBool b => b
  | .vFloat num den => den != 0 && num == (den : Int)
  | _ => false

/-- The value tuple `MySQLDataManager.insert_device_data` binds into its
INSERT statement, one column per `CanonicalRecord` field. -/
structure SinkRow where
  raw_value : PyVal
  rms_value : PyVal
  threshold_value : PyVal
  state : PyVal
  movement_count : PyVal
  is_connected : PyVal
  is_alarm : PyVal
  timestamp : PyVal
  deriving DecidableEq, Repr

/-- Construction of the INSERT value tuple from the parsed dict, straight
from `insert_device_data`: plain `.get` (default `None`) for the optional
fields, and defaults 1 / 0 / now for `is_connected` / `is_alarm` /
`timestamp`. -/
def mkRow (d : PyDict) (now : Nat) : SinkRow :=
  { raw_value := dictGetD d "raw_value" PyVal.vNone,
    rms_value := dictGetD d "rms_value" PyVal.vNone,
    threshold_value := dictGetD d "threshold_value" PyVal.vNone,
    state := dictGetD d "state" PyVal.vNone,
    movement_count := dictGetD d "movement_count" PyVal.vNone,
    is_connected := dictGetD d "is_connected" (PyVal.vInt 1),
    is_alarm := dictGetD d "is_alarm" (PyVal.vInt 0),
    timestamp := dictGetD d "timestamp" (PyVal.vInt (now : Int)) }

/-- Observable state of the ingestion coordinator: the `stats` counters set
up in `MQTTReceiver.__init__`, plus the externally visible effect logs
(sink invocations and alarm notifications). -/
structure RState where
  total_received : Nat
  total_processed : Nat
  total_errors : Nat
  last_message_time : Option Nat
  sink_calls : List (String × SinkRow)
  notifications : List String
  deriving DecidableEq, Repr

/-- Fresh counters, as initialized by `MQTTReceiver.__init__`. -/
def freshState : RState :=
  { total_received := 0, total_processed := 0, total_errors := 0,
    last_message_time := none, sink_calls := [], notifications := [] }

/-- Body of the `try` block of `MQTTReceiver.handle_message`, line by line;
the second component is the exception (if any) reaching the `except`
clause.  `insertOk` is the storage sink's success oracle
(`insert_device_data` catches its own exceptions and returns a boolean). -/
def handleMessageBody (cfg : AlarmConfig) (insertOk : Bool) (now : Nat)
    (s : RState) (topic : String) (payload : List Nat) : RState × Option Unit :=
  let s1 : RState := { s with total_received := s.total_received + 1,
                              last_message_time := some now }
  match utf8Decode payload with
  | none => (s1, some ())
  | some pstr =>
      match extract_device_id topic with
      | none => (s1, none)
      | some device_id =>
          match parse_data pstr with
          | none => (s1, none)
          | some d =>
              if d.isEmpty then (s1, none)
              else
                let d1 := dictSet d "timestamp" (PyVal.vInt (now : Int))
                let s2 := { s1 with
                  sink_calls := s1.sink_calls ++ [(device_id, mkRow d1 now)] }
                let s3 :=
                  if insertOk then
                    { s2 with total_processed := s2.total_processed + 1 }
                  else
                    { s2 with total_errors := s2.total_errors + 1 }
                let s4 :=
                  if pyEqOne (dictGetD d1 "is_alarm" PyVal.vNone) then
                    match handle_alarm cfg device_id with
                    | some n => { s3 with notifications := s3.notifications ++ [n] }
                    | none => s3
                  else s3
                (s4, none)

/-- `MQTTReceiver.handle_message`: the `try` body wrapped in the catch-all
`except` clause (which increments `total_errors`); the second component is
what escapes to the MQTT transport callback. -/
def handle_message (cfg : AlarmConfig) (insertOk : Bool) (now : Nat)
    (s : RState) (topic : String) (payload : List Nat) : RState × Option Unit :=
  match handleMessageBody cfg insertOk now s topic payload with
  | (sb, none) => (sb, none)
  | (sb, some _) => ({ sb with total_errors := sb.total_errors + 1 }, none)

/-- One transport delivery: topic, raw payload bytes, the sink outcome for
this message and the wall-clock second at arrival. -/
structure InMsg where
  topic : String
  payload : List Nat
  insertOk : Bool
  now : Nat

/-- Serialized replay of a message trace through `handle_message` (the MQTT
client dispatches callbacks one at a time). -/
def runMsgs (cfg : AlarmConfig) : RState → List InMsg → RState
  | s, [] => s
  | s, m :: ms =>
      runMsgs cfg (handle_message cfg m.insertOk m.now s m.topic m.payload).1 ms

/-- Value shape check: a Python int or `None` (a well-typed optional
integer column value). -/
def isIntOrNone : PyVal → Bool
  | .vInt _ => true
  | .vNone => true
  | _ => false

/-- Value shape check: a Python float or `None` (a well-typed optional
decimal column value). -/
def isFloatOrNone : PyVal → Bool
  | .vFloat _ _ => true
  | .vNone => true
  | _ => false

/-- The typed-or-absent invariant on the parsed dictionary, for the five
optional `CanonicalRecord` fields. -/
def wellTypedDict (d : PyDict) : Prop :=
  (∀ v, dictFind d "raw_value" = some v → isIntOrNone v = true) ∧
  (∀ v, dictFind d "rms_value" = some v → isFloatOrNone v = true) ∧
  (∀ v, dictFind d "threshold_value" = some v → isFloatOrNone v = true) ∧
  (∀ v, dictFind d "state" = some v → isIntOrNone v = true) ∧
  (∀ v, dictFind d "movement_count" = some v → isIntOrNone v = true)

/-- The typed-or-absent invariant on the INSERT value tuple. -/
def rowWellTyped (r : SinkRow) : Prop :=
  isIntOrNone r.raw_value = true ∧ isFloatOrNone r.rms_value = true ∧
  isFloatOrNone r.threshold_value = true ∧ isIntOrNone r.state = true ∧
  isIntOrNone r.movement_count = true

/-- Absence propagation: a field missing from the dict reaches the INSERT
tuple as `None`, never as zero or an empty string. -/
def absencePropagates (d : PyDict) (r : SinkRow) : Prop :=
  (dictFind d "raw_value" = none → r.raw_value = PyVal.vNone) ∧
  (dictFind d "rms_value" = none → r.rms_value = PyVal.vNone) ∧
  (dictFind d "threshold_value" = none → r.threshold_value = PyVal.vNone) ∧
  (dictFind d "state" = none → r.state = PyVal.vNone) ∧
  (dictFind d "movement_count" = none → r.movement_count = PyVal.vNone)

theorem dictFind_dictSet (d : PyDict) (k k2 : String) (v : PyVal) :
    dictFind (dictSet d k v) k2 = if k2 = k then some v else dictFind d k2 := by
  induction d with
  | nil =>
      by_cases h : k2 = k
      · subst h; simp [dictSet, dictFind]
      · simp [dictSet, dictFind, h, Ne.symm h]
  | cons hd tl ih =>
      obtain ⟨k0, v0⟩ := hd
      by_cases h0 : k0 = k
      · subst h0
        by_cases h2 : k0 = k2
        · subst h2; simp [dictSet, dictFind]
        · simp [dictSet, dictFind, h2, Ne.symm h2]
      · by_cases h2 : k0 = k2
        · subst h2
          simp [dictSet, dictFind, h0, Ne.symm h0]
        · simp [dictSet, dictFind, h0, h2, ih]

theorem body_counters (cfg : AlarmConfig) (insertOk : Bool) (now : Nat)
    (s : RState) (topic : String) (payload : List Nat) :
    let b := handleMessageBody cfg insertOk now s topic payload
    b.1.total_received = s.total_received + 1 ∧
    s.total_processed ≤ b.1.total_processed ∧
    b.1.total_processed ≤ s.total_processed + 1 ∧
    s.total_errors ≤ b.1.total_errors ∧
    b.1.total_errors ≤ s.total_errors + 1 ∧
    b.1.total_processed + b.1.total_errors ≤ s.total_processed + s.total_errors + 1 ∧
    (b.2.isSome = true → b.1.total_processed = s.total_processed ∧
      b.1.total_errors = s.total_errors) := by
  dsimp only
  unfold handleMessageBody
  cases hdec : utf8Decode payload with
  | none => simp [hdec]
  | some pstr =>
    cases hdev : extract_device_id topic with
    | none => simp [hdec, hdev]
    | some did =>
      cases hp : parse_data pstr with
      | none => simp [hdec, hdev, hp]
      | some d =>
        cases hde : d.isEmpty with
        | true => simp [hdec, hdev, hp, hde]
        | false =>
          cases insertOk with
          | true =>
            by_cases ha : pyEqOne (dictGetD (dictSet d "timestamp"
                (PyVal.vInt (now : Int))) "is_alarm" PyVal.vNone)
            · cases hn : handle_alarm cfg did <;>
                simp [hdec, hdev, hp, hde, ha, hn] <;> omega
            · simp [hdec, hdev, hp, hde, ha]
              omega
          | false =>
            by_cases ha : pyEqOne (dictGetD (dictSet d "timestamp"
                (PyVal.vInt (now : Int))) "is_alarm" PyVal.vNone)
            · cases hn : handle_alarm cfg did <;>
                simp [hdec, hdev, hp, hde, ha, hn] <;> omega
            · simp [hdec, hdev, hp, hde, ha]
              omega

theorem hm_counters (cfg : AlarmConfig) (insertOk : Bool) (now : Nat)
    (s : RState) (topic : String) (payload : List Nat) :
    let s2 := (handle_message cfg insertOk now s topic payload).1
    s2.total_received = s.total_received + 1 ∧
    s.total_processed ≤ s2.total_processed ∧
    s2.total_processed ≤ s.total_processed + 1 ∧
    s.total_errors ≤ s2.total_errors ∧
    s2.total_errors ≤ s.total_errors + 1 ∧
    s2.total_processed + s2.total_errors ≤ s.total_processed + s.total_errors + 1 := by
  have hb := body_counters cfg insertOk now s topic payload
  dsimp only at hb ⊢
  unfold handle_message
  rcases hbe : handleMessageBody cfg insertOk now s topic payload with ⟨sb, e⟩
  rw [hbe] at hb
  cases e with
  | none =>
      obtain ⟨h1, h2, h3, h4, h5, h6, _⟩ := hb
      exact ⟨h1, h2, h3, h4, h5, h6⟩
  | some u =>
      obtain ⟨h1, h2, h3, h4, h5, h6, h7⟩ := hb
      obtain ⟨hp2, he2⟩ := h7 rfl
      dsimp only at h1 h2 h3 h4 h5 h6 hp2 he2 ⊢
      refine ⟨?_, ?_, ?_, ?_, ?_, ?_⟩ <;> dsimp only <;> omega

theorem runMsgs_counters (cfg : AlarmConfig) (msgs : List InMsg) :
    ∀ s : RState, s.total_processed + s.total_errors ≤ s.total_received →
      (runMsgs cfg s msgs).total_processed + (runMsgs cfg s msgs).total_errors ≤
        (runMsgs cfg s msgs).total_received := by
  induction msgs with
  | nil => intro s h; simpa [runMsgs] using h
  | cons m ms ih =>
      intro s h
      have hs := hm_counters cfg m.insertOk m.now s m.topic m.payload
      dsimp only at hs
      simp only [runMsgs]
      exact ih _ (by omega)

/-- C1: for every incoming message (any topic and any byte payload,
including payloads that are not valid UTF-8 or whose parsing raises inside
`parse_data`), `handle_message` returns normally: no exception escapes to
the MQTT transport callback. -/
theorem handle_message_never_raises (cfg : AlarmConfig) (insertOk : Bool)
    (now : Nat) (s : RState) (topic : String) (payload : List Nat) :
    (handle_message cfg insertOk now s topic payload).2 = none := by
  unfold handle_message
  rcases hbe : handleMessageBody cfg insertOk now s topic payload with ⟨sb, e⟩
  cases e <;> rfl

/-- C2 (code bug): the configuration declares a 60-second
`device_alarm_cooldown`, but `handle_alarm` keeps no per-device timing state
and never reads it, so a device alarm at t = 0 followed by another at
t = 30 produces two raised notifications instead of a `Suppressed(Cooldown)`
at t = 30. -/
theorem alarm_cooldown_not_enforced :
    ALARM_CONFIG.device_alarm_cooldown = 60 ∧
    (runMsgs ALARM_CONFIG freshState
      [⟨"sleep_blanket/SB001/data", asciiBytes "ALARM:1", true, 0⟩,
       ⟨"sleep_blanket/SB001/data", asciiBytes "ALARM:1", true, 30⟩]).notifications
      = ["SB001", "SB001"] := by
  exact ⟨rfl, by decide⟩

/-- C10: every `handle_message` invocation increments `total_received` by
exactly one, moves each of `total_processed` and `total_errors` up by at
most one and their sum by at most one, and never decreases a counter;
consequently every trace from fresh counters satisfies
`total_processed + total_errors ≤ total_received`. -/
theorem handle_message_counter_discipline :
    (∀ (cfg : AlarmConfig) (insertOk : Bool) (now : Nat) (s : RState)
        (topic : String) (payload : List Nat),
      let s2 := (handle_message cfg insertOk now s topic payload).1
      s2.total_received = s.total_received + 1 ∧
      s.total_processed ≤ s2.total_processed ∧
      s2.total_processed ≤ s.total_processed + 1 ∧
      s.total_errors ≤ s2.total_errors ∧
      s2.total_errors ≤ s.total_errors + 1 ∧
      s2.total_processed + s2.total_errors ≤
        s.total_processed + s.total_errors + 1) ∧
    (∀ (cfg : AlarmConfig) (msgs : List InMsg),
      (runMsgs cfg freshState msgs).total_processed +
        (runMsgs cfg freshState msgs).total_errors ≤
        (runMsgs cfg freshState msgs).total_received) :=
  ⟨hm_counters, fun cfg msgs => runMsgs_counters cfg msgs freshState (by simp [freshState])⟩

/-- C3 (counterexample): on a resolvable topic, the unparseable payload
`garbage data` leaves `total_errors` at 0 and never invokes the sink, so
the claimed "increments total_errors by exactly 1" fails on the code. -/
theorem parse_failure_error_count_cex :
    (handle_message ALARM_CONFIG true 7 freshState "sleep_blanket/SB042/data"
        (asciiBytes "garbage data")).1.total_errors = 0 ∧
    (handle_message ALARM_CONFIG true 7 freshState "sleep_blanket/SB042/data"
        (asciiBytes "garbage data")).1.sink_calls = [] ∧
    (handle_message ALARM_CONFIG true 7 freshState "sleep_blanket/SB042/data"
        (asciiBytes "garbage data")).1.total_received = 1 :=
  ⟨by decide, by decide, by decide⟩

/-- C3 (amended): when the topic resolves to a device id but the payload
parses to a falsy result (no record), `handle_message` leaves
`total_errors`, `total_processed` and the sink untouched; the message is
only counted as received. -/
theorem parse_failure_drops_without_error (cfg : AlarmConfig)
    (insertOk : Bool) (now : Nat) (s : RState) (topic : String)
    (payload : List Nat) (pstr did : String)
    (hdec : utf8Decode payload = some pstr)
    (hdev : extract_device_id topic = some did)
    (hparse : pyTruthy (parse_data pstr) = false) :
    let s2 := (handle_message cfg insertOk now s topic payload).1
    s2.total_errors = s.total_errors ∧
    s2.total_processed = s.total_processed ∧
    s2.sink_calls = s.sink_calls ∧
    s2.total_received = s.total_received + 1 := by
  dsimp only
  unfold handle_message handleMessageBody
  cases hp : parse_data pstr with
  | none => simp [hdec, hdev, hp]
  | some d =>
      cases d with
      | nil => simp [hdec, hdev, hp]
      | cons a l => rw [hp] at hparse; simp [pyTruthy] at hparse

/-- Witness for the amended C3 theorem at the concrete malformed message. -/
theorem parse_failure_drops_without_error_witness :
    let s2 := (handle_message ALARM_CONFIG true 7 freshState
      "sleep_blanket/SB042/data" (asciiBytes "garbage data")).1
    s2.total_errors = freshState.total_errors ∧
    s2.total_processed = freshState.total_processed ∧
    s2.sink_calls = freshState.sink_calls ∧
    s2.total_received = freshState.total_received + 1 :=
  parse_failure_drops_without_error ALARM_CONFIG true 7 freshState
    "sleep_blanket/SB042/data" (asciiBytes "garbage data") "garbage data"
    "SB042" (by decide) (by decide) (by decide)

/-- C8 (counterexample): a structured payload preceded by leading
whitespace is not decoded as the structured format: with the space it falls
into the delimited branch and yields an empty (falsy) record, while the
same payload without the space decodes to the record. -/
theorem json_leading_ws_cex :
    parse_data " \x7b\"raw_value\": 5\x7d" = some [] ∧
    parse_data "\x7b\"raw_value\": 5\x7d" = some [("raw_value", PyVal.vInt 5)] ∧
    pyTruthy (parse_data " \x7b\"raw_value\": 5\x7d") = false :=
  ⟨by decide, by decide, by decide⟩

/-- C8 (amended): `parse_data` takes the structured branch exactly when the
payload's very first character is the opening brace (no whitespace is
skipped), and a JSON decode failure then yields the falsy `None` result. -/
theorem json_branch_on_first_char (payload : String)
    (h : headIs obrace payload.data = true) :
    parse_data payload = jsonLoads payload ∧
    (jsonLoads payload = none → parse_data payload = none) := by
  refine ⟨by simp [parse_data, h], fun hj => by simp [parse_data, h, hj]⟩

/-- Witness for the amended C8 theorem at the empty JSON object payload. -/
theorem json_branch_on_first_char_witness :
    parse_data "\x7b\x7d" = jsonLoads "\x7b\x7d" ∧
    (jsonLoads "\x7b\x7d" = none → parse_data "\x7b\x7d" = none) :=
  json_branch_on_first_char "\x7b\x7d" (by decide)

/-- C9: a topic in which the regex search for `sleep_blanket/([^/]+)/data`
finds no match but which contains the literal `device/sleep_blanket` as a
substring resolves to the fixed sentinel `GENERAL_DEVICE`. -/
theorem general_device_substring_rule (topic : String)
    (hpat : searchPat topic.data = none)
    (hsub : strContains topic "device/sleep_blanket" = true) :
    extract_device_id topic = some "GENERAL_DEVICE" := by
  simp [extract_device_id, hpat, hsub]

/-- Witness for C9 at the spec's example topic. -/
theorem general_device_substring_rule_witness :
    extract_device_id "device/sleep_blanket/extra" = some "GENERAL_DEVICE" :=
  general_device_substring_rule "device/sleep_blanket/extra" (by decide)
    (by decide)

theorem tokenEffect_inv (p : String) (k : String) (v : PyVal)
    (heq : tokenEffect p = .ok (some (k, v))) :
    ∃ key value, tokenKey p = some key ∧ tokenVal p = some value ∧
      ((value = "N/A" ∧ k = naTarget key ∧ v = PyVal.vNone) ∨
       (value ≠ "N/A" ∧ key = "raw" ∧ k = "raw_value" ∧ v = intOrNone value) ∨
       (value ≠ "N/A" ∧ key = "rms" ∧ k = "rms_value" ∧ floatOrNone value = .ok v) ∨
       (value ≠ "N/A" ∧ key = "th" ∧ k = "threshold_value" ∧
         floatOrNone value = .ok v) ∨
       (value ≠ "N/A" ∧ key = "state" ∧ k = "state" ∧ v = intOrNone value) ∨
       (value ≠ "N/A" ∧ key = "move" ∧ k = "movement_count" ∧ v = intOrNone value) ∨
       (value ≠ "N/A" ∧ key = "connected" ∧ k = "is_connected" ∧ v = intOrD value 1) ∨
       (value ≠ "N/A" ∧ key = "alarm" ∧ k = "is_alarm" ∧ v = intOrD value 0)) := by
  cases hk : tokenKey p with
  | none => cases hv : tokenVal p <;> simp [tokenEffect, hk, hv] at heq
  | some key =>
      cases hv : tokenVal p with
      | none => simp [tokenEffect, hk, hv] at heq
      | some value =>
          refine ⟨key, value, rfl, rfl, ?_⟩
          simp only [tokenEffect, hk, hv] at heq
          split_ifs at heq with h1 h2 h3 h4 h5 h6 h7 h8
          · simp only [Except.ok.injEq, Option.some.injEq, Prod.mk.injEq] at heq
            exact Or.inl ⟨h1, heq.1.symm, heq.2.symm⟩
          · simp only [Except.ok.injEq, Option.some.injEq, Prod.mk.injEq] at heq
            exact Or.inr (Or.inl ⟨h1, h2, heq.1.symm, heq.2.symm⟩)
          · cases hf : floatOrNone value with
            | error e => rw [hf] at heq; simp [Except.map] at heq
            | ok w =>
                rw [hf] at heq
                simp only [Except.map, Except.ok.injEq, Option.some.injEq,
                  Prod.mk.injEq] at heq
                exact Or.inr (Or.inr (Or.inl ⟨h1, h3, heq.1.symm, by rw [heq.2]⟩))
          · cases hf : floatOrNone value with
            | error e => rw [hf] at heq; simp [Except.map] at heq
            | ok w =>
                rw [hf] at heq
                simp only [Except.map, Except.ok.injEq, Option.some.injEq,
                  Prod.mk.injEq] at heq
                exact Or.inr (Or.inr (Or.inr (Or.inl
                  ⟨h1, h4, heq.1.symm, by rw [heq.2]⟩)))
          · simp only [Except.ok.injEq, Option.some.injEq, Prod.mk.injEq] at heq
            exact Or.inr (Or.inr (Or.inr (Or.inr (Or.inl
              ⟨h1, h5, heq.1.symm, heq.2.symm⟩))))
          · simp only [Except.ok.injEq, Option.some.injEq, Prod.mk.injEq] at heq
            exact Or.inr (Or.inr (Or.inr (Or.inr (Or.inr (Or.inl
              ⟨h1, h6, heq.1.symm, heq.2.symm⟩)))))
          · simp only [Except.ok.injEq, Option.some.injEq, Prod.mk.injEq] at heq
            exact Or.inr (Or.inr (Or.inr (Or.inr (Or.inr (Or.inr (Or.inl
              ⟨h1, h7, heq.1.symm, heq.2.symm⟩))))))
          · simp only [Except.ok.injEq, Option.some.injEq, Prod.mk.injEq] at heq
            exact Or.inr (Or.inr (Or.inr (Or.inr (Or.inr (Or.inr (Or.inr
              ⟨h1, h8, heq.1.symm, heq.2.symm⟩))))))
          · simp at heq

theorem isIntOrNone_intOrNone (value : String) :
    isIntOrNone (intOrNone value) = true := by
  by_cases h : pyIsDigit value <;> simp [intOrNone, h, isIntOrNone]

theorem floatOrNone_shape (value : String) (w : PyVal)
    (h : floatOrNone value = .ok w) : isFloatOrNone w = true := by
  unfold floatOrNone at h
  split_ifs at h with hg
  · cases hp : pyFloatGuarded value with
    | none => rw [hp] at h; simp at h
    | some q =>
        rw [hp] at h
        simp only [Except.ok.injEq] at h
        rw [← h]; rfl
  · simp only [Except.ok.injEq] at h
    rw [← h]; rfl

theorem tokenEffect_assign_shape (p : String) (k : String) (v : PyVal)
    (heq : tokenEffect p = .ok (some (k, v))) :
    (k = "raw_value" → isIntOrNone v = true) ∧
    (k = "rms_value" → isFloatOrNone v = true) ∧
    (k = "threshold_value" → isFloatOrNone v = true) ∧
    (k = "state" → isIntOrNone v = true) ∧
    (k = "movement_count" → isIntOrNone v = true) := by
  obtain ⟨key, value, hk, hv, hcase⟩ := tokenEffect_inv p k v heq
  rcases hcase with ⟨hna, hk2, hv2⟩ | ⟨_, _, hk2, hv2⟩ | ⟨_, _, hk2, hf⟩ |
    ⟨_, _, hk2, hf⟩ | ⟨_, _, hk2, hv2⟩ | ⟨_, _, hk2, hv2⟩ | ⟨_, _, hk2, hv2⟩ |
    ⟨_, _, hk2, hv2⟩
  · subst hv2; exact ⟨fun _ => rfl, fun _ => rfl, fun _ => rfl,
      fun _ => rfl, fun _ => rfl⟩
  · subst hk2; subst hv2
    exact ⟨fun _ => isIntOrNone_intOrNone value,
      fun h => absurd h (by decide), fun h => absurd h (by decide),
      fun h => absurd h (by decide), fun h => absurd h (by decide)⟩
  · subst hk2
    exact ⟨fun h => absurd h (by decide), fun _ => floatOrNone_shape value v hf,
      fun h => absurd h (by decide), fun h => absurd h (by decide),
      fun h => absurd h (by decide)⟩
  · subst hk2
    exact ⟨fun h => absurd h (by decide), fun h => absurd h (by decide),
      fun _ => floatOrNone_shape value v hf, fun h => absurd h (by decide),
      fun h => absurd h (by decide)⟩
  · subst hk2; subst hv2
    exact ⟨fun h => absurd h (by decide), fun h => absurd h (by decide),
      fun h => absurd h (by decide), fun _ => isIntOrNone_intOrNone value,
      fun h => absurd h (by decide)⟩
  · subst hk2; subst hv2
    exact ⟨fun h => absurd h (by decide), fun h => absurd h (by decide),
      fun h => absurd h (by decide), fun h => absurd h (by decide),
      fun _ => isIntOrNone_intOrNone value⟩
  · subst hk2
    exact ⟨fun h => absurd h (by decide), fun h => absurd h (by decide),
      fun h => absurd h (by decide), fun h => absurd h (by decide),
      fun h => absurd h (by decide)⟩
  · subst hk2
    exact ⟨fun h => absurd h (by decide), fun h => absurd h (by decide),
      fun h => absurd h (by decide), fun h => absurd h (by decide),
      fun h => absurd h (by decide)⟩

theorem wellTypedDict_nil : wellTypedDict [] := by
  refine ⟨?_, ?_, ?_, ?_, ?_⟩ <;> intro v h <;> exact Option.noConfusion h

theorem wellTypedDict_set (d : PyDict) (k : String) (v : PyVal)
    (hw : wellTypedDict d)
    (hs : (k = "raw_value" → isIntOrNone v = true) ∧
      (k = "rms_value" → isFloatOrNone v = true) ∧
      (k = "threshold_value" → isFloatOrNone v = true) ∧
      (k = "state" → isIntOrNone v = true) ∧
      (k = "movement_count" → isIntOrNone v = true)) :
    wellTypedDict (dictSet d k v) := by
  obtain ⟨w1, w2, w3, w4, w5⟩ := hw
  obtain ⟨s1, s2, s3, s4, s5⟩ := hs
  refine ⟨?_, ?_, ?_, ?_, ?_⟩ <;> intro w hfind <;>
    rw [dictFind_dictSet] at hfind <;> split_ifs at hfind with hk2
  · injection hfind with h2; rw [← h2]; exact s1 hk2.symm
  · exact w1 w hfind
  · injection hfind with h2; rw [← h2]; exact s2 hk2.symm
  · exact w2 w hfind
  · injection hfind with h2; rw [← h2]; exact s3 hk2.symm
  · exact w3 w hfind
  · injection hfind with h2; rw [← h2]; exact s4 hk2.symm
  · exact w4 w hfind
  · injection hfind with h2; rw [← h2]; exact s5 hk2.symm
  · exact w5 w hfind

theorem foldTokens_wellTyped (ps : List String) : ∀ d d2 : PyDict,
    foldTokens d ps = .ok d2 → wellTypedDict d → wellTypedDict d2 := by
  induction ps with
  | nil =>
      intro d d2 h hw
      simp only [foldTokens, Except.ok.injEq] at h
      rw [← h]; exact hw
  | cons p ps ih =>
      intro d d2 h hw
      cases he : tokenEffect p with
      | error e => rw [foldTokens, he] at h; simp at h
      | ok o =>
          cases o with
          | none =>
              rw [foldTokens, he] at h
              exact ih d d2 h hw
          | some kv =>
              obtain ⟨k, v⟩ := kv
              rw [foldTokens, he] at h
              exact ih _ d2 h
                (wellTypedDict_set d k v hw (tokenEffect_assign_shape p k v he))

theorem dictGetD_set_other (d : PyDict) (k k2 : String) (v dflt : PyVal)
    (hne : k2 ≠ k) : dictGetD (dictSet d k v) k2 dflt = dictGetD d k2 dflt := by
  unfold dictGetD
  rw [dictFind_dictSet, if_neg hne]

theorem getD_shape_int (d : PyDict) (k : String)
    (hwk : ∀ v, dictFind d k = some v → isIntOrNone v = true) :
    isIntOrNone (dictGetD d k PyVal.vNone) = true := by
  unfold dictGetD
  cases h : dictFind d k with
  | none => rfl
  | some w => exact hwk w h

theorem getD_shape_float (d : PyDict) (k : String)
    (hwk : ∀ v, dictFind d k = some v → isFloatOrNone v = true) :
    isFloatOrNone (dictGetD d k PyVal.vNone) = true := by
  unfold dictGetD
  cases h : dictFind d k with
  | none => rfl
  | some w => exact hwk w h

theorem getD_absent (d : PyDict) (k : String) (h : dictFind d k = none) :
    dictGetD d k PyVal.vNone = PyVal.vNone := by
  unfold dictGetD
  rw [h]; rfl

theorem parse_data_delimited_fold (payload : String) (d : PyDict)
    (hnj : headIs obrace payload.data = false)
    (hacc : parse_data payload = some d) :
    foldTokens [] ((splitCommaSpace payload.data []).map String.mk) = .ok d := by
  rw [parse_data, if_neg (by rw [hnj]; exact Bool.false_ne_true)] at hacc
  cases hf : foldTokens [] ((splitCommaSpace payload.data []).map String.mk) with
  | ok d0 =>
      rw [hf] at hacc
      simp only [Option.some.injEq] at hacc
      exact congrArg Except.ok hacc
  | error e => rw [hf] at hacc; simp at hacc

/-- C6 (counterexample): the JSON branch performs no field validation, so
the payload with a string-valued `raw_value` is accepted and the malformed
string reaches the sink's INSERT tuple verbatim. -/
theorem json_unvalidated_value_reaches_sink_cex :
    pyTruthy (parse_data "\x7b\"raw_value\": \"bad\"\x7d") = true ∧
    (handle_message ALARM_CONFIG true 5 freshState "sleep_blanket/SB001/data"
        (asciiBytes "\x7b\"raw_value\": \"bad\"\x7d")).1.sink_calls =
      [("SB001",
        { raw_value := PyVal.vStr "bad", rms_value := PyVal.vNone,
          threshold_value := PyVal.vNone, state := PyVal.vNone,
          movement_count := PyVal.vNone, is_connected := PyVal.vInt 1,
          is_alarm := PyVal.vInt 0, timestamp := PyVal.vInt 5 })] ∧
    isIntOrNone (PyVal.vStr "bad") = false :=
  ⟨by decide, by decide, by decide⟩

/-- C6 (amended, delimited format): every record the delimited branch
accepts is well typed: each of the five optional fields in the INSERT value
tuple is a value of its expected type or `None`, and a field absent from
the record reaches the sink as `None`, never as zero or an empty string. -/
theorem delimited_sink_row_typed (payload : String) (d : PyDict) (now : Nat)
    (hnj : headIs obrace payload.data = false)
    (hacc : parse_data payload = some d) :
    rowWellTyped (mkRow (dictSet d "timestamp" (PyVal.vInt (now : Int))) now) ∧
    absencePropagates d
      (mkRow (dictSet d "timestamp" (PyVal.vInt (now : Int))) now) := by
  have hft := parse_data_delimited_fold payload d hnj hacc
  have hw := foldTokens_wellTyped _ [] d hft wellTypedDict_nil
  obtain ⟨w1, w2, w3, w4, w5⟩ := hw
  constructor
  · refine ⟨?_, ?_, ?_, ?_, ?_⟩ <;>
      simp only [mkRow] <;>
      rw [dictGetD_set_other _ _ _ _ _ (by decide)]
    · exact getD_shape_int d _ w1
    · exact getD_shape_float d _ w2
    · exact getD_shape_float d _ w3
    · exact getD_shape_int d _ w4
    · exact getD_shape_int d _ w5
  · refine ⟨?_, ?_, ?_, ?_, ?_⟩ <;> intro habs <;>
      simp only [mkRow] <;>
      rw [dictGetD_set_other _ _ _ _ _ (by decide)] <;>
      exact getD_absent d _ habs

/-- Witness for the amended C6 theorem: the payload `RAW:N/A, RMS:2.5`
parses to a record with `raw_value` explicitly absent and `rms_value` a
decimal; its INSERT tuple is well typed and propagates absence as `None`. -/
theorem delimited_sink_row_typed_witness :
    rowWellTyped (mkRow (dictSet
      [("raw_value", PyVal.vNone), ("rms_value", PyVal.vFloat 25 10)]
      "timestamp" (PyVal.vInt ((9 : Nat) : Int))) 9) ∧
    absencePropagates
      [("raw_value", PyVal.vNone), ("rms_value", PyVal.vFloat 25 10)]
      (mkRow (dictSet
        [("raw_value", PyVal.vNone), ("rms_value", PyVal.vFloat 25 10)]
        "timestamp" (PyVal.vInt ((9 : Nat) : Int))) 9) :=
  delimited_sink_row_typed "RAW:N/A, RMS:2.5"
    [("raw_value", PyVal.vNone), ("rms_value", PyVal.vFloat 25 10)] 9
    (by decide) (by decide)

theorem foldTokens_all_skip (ps : List String) : ∀ d : PyDict,
    (∀ p ∈ ps, tokenEffect p = .ok none) → foldTokens d ps = .ok d := by
  induction ps with
  | nil => intro d _; rfl
  | cons p ps ih =>
      intro d h
      have hp := h p (List.mem_cons_self p ps)
      rw [foldTokens, hp]
      exact ih d (fun q hq => h q (List.mem_cons_of_mem p hq))

/-- C5 (counterexample): the token `FOO:N/A` has an unrecognized key yet is
not ignored: it contributes the entry `foo -> None`, and the payload
`FOO:N/A` with zero recognized keys parses to a truthy (nonempty) record
instead of being treated as a parse failure. -/
theorem unrecognized_na_token_cex :
    parse_data "FOO:N/A" = some [("foo", PyVal.vNone)] ∧
    pyTruthy (parse_data "FOO:N/A") = true :=
  ⟨by decide, by decide⟩

/-- C5 (amended): a token with an unrecognized key and a value other than
`N/A` contributes nothing; an unrecognized key with value `N/A` contributes
a `None` entry under that key; and a delimited payload in which every token
is skipped (no colon, or unrecognized key with a non-`N/A` value) parses to
the empty record, which the coordinator treats as a parse failure. -/
theorem unrecognized_token_handling :
    (∀ part key value, tokenKey part = some key → tokenVal part = some value →
        key ∉ recognizedKeys → value ≠ "N/A" → tokenEffect part = .ok none) ∧
    (∀ part key, tokenKey part = some key → tokenVal part = some "N/A" →
        tokenEffect part = .ok (some (naTarget key, PyVal.vNone))) ∧
    (∀ payload, headIs obrace payload.data = false →
        (∀ part ∈ (splitCommaSpace payload.data []).map String.mk,
            tokenEffect part = .ok none) →
        parse_data payload = some []) := by
  refine ⟨?_, ?_, ?_⟩
  · intro part key value hk hv hmem hne
    simp only [recognizedKeys, List.mem_cons, List.not_mem_nil, or_false,
      not_or] at hmem
    obtain ⟨h1, h2, h3, h4, h5, h6, h7⟩ := hmem
    simp only [tokenEffect, hk, hv]
    rw [if_neg hne, if_neg h1, if_neg h2, if_neg h3, if_neg h4, if_neg h5,
      if_neg h6, if_neg h7]
  · intro part key hk hv
    simp only [tokenEffect, hk, hv]
    rw [if_pos trivial]
  · intro payload hnj hall
    rw [parse_data, if_neg (by rw [hnj]; exact Bool.false_ne_true),
      foldTokens_all_skip _ [] hall]

/-- Witness for the amended C5 theorem: the token `FOO:bar` is skipped, the
token `FOO:N/A` adds `foo -> None`, and the payload `hello world, FOO:bar`
(a skipped colon-free token plus a skipped unrecognized token) parses to
the empty record. -/
theorem unrecognized_token_handling_witness :
    tokenEffect "FOO:bar" = .ok none ∧
    tokenEffect "FOO:N/A" = .ok (some (naTarget "foo", PyVal.vNone)) ∧
    parse_data "hello world, FOO:bar" = some [] := by
  refine ⟨?_, ?_, ?_⟩
  · exact unrecognized_token_handling.1 "FOO:bar" "foo" "bar" (by decide)
      (by decide) (by decide) (by decide)
  · exact unrecognized_token_handling.2.1 "FOO:N/A" "foo" (by decide) (by decide)
  · refine unrecognized_token_handling.2.2 "hello world, FOO:bar" (by decide) ?_
    intro part hp
    have hsp : (splitCommaSpace "hello world, FOO:bar".data []).map String.mk
        = ["hello world", "FOO:bar"] := by decide
    rw [hsp] at hp
    simp only [List.mem_cons, List.not_mem_nil, or_false] at hp
    rcases hp with h | h <;> rw [h] <;> decide

theorem rawNA_effect (p : String) (hk : tokenKey p = some "raw")
    (hv : tokenVal p = some "N/A") :
    tokenEffect p = .ok (some ("raw_value", PyVal.vNone)) := by
  simp only [tokenEffect, hk, hv]
  rw [if_pos trivial]
  rfl

theorem rawAssign_none (p : String) (v : PyVal)
    (hg : tokenKey p = some "raw" → tokenVal p = some "N/A")
    (heq : tokenEffect p = .ok (some ("raw_value", v))) : v = PyVal.vNone := by
  obtain ⟨key, value, hk, hv, hcase⟩ := tokenEffect_inv p "raw_value" v heq
  rcases hcase with ⟨hna, hk2, hv2⟩ | ⟨hne, hkey, hk2, hv2⟩ | ⟨_, _, hk2, _⟩ |
    ⟨_, _, hk2, _⟩ | ⟨_, _, hk2, _⟩ | ⟨_, _, hk2, _⟩ | ⟨_, _, hk2, _⟩ |
    ⟨_, _, hk2, _⟩
  · exact hv2
  · subst hkey
    have h2 := hg hk
    rw [hv] at h2
    injection h2 with h3
    exact absurd h3 hne
  · exact absurd hk2 (by decide)
  · exact absurd hk2 (by decide)
  · exact absurd hk2 (by decide)
  · exact absurd hk2 (by decide)
  · exact absurd hk2 (by decide)
  · exact absurd hk2 (by decide)

theorem foldTokens_raw_preserved (ps : List String) : ∀ d d2 : PyDict,
    (∀ p ∈ ps, tokenKey p = some "raw" → tokenVal p = some "N/A") →
    foldTokens d ps = .ok d2 →
    dictFind d "raw_value" = some PyVal.vNone →
    dictFind d2 "raw_value" = some PyVal.vNone := by
  induction ps with
  | nil =>
      intro d d2 _ h hd
      simp only [foldTokens, Except.ok.injEq] at h
      rw [← h]; exact hd
  | cons p ps ih =>
      intro d d2 hall h hd
      have hall2 : ∀ q ∈ ps, tokenKey q = some "raw" → tokenVal q = some "N/A" :=
        fun q hq => hall q (List.mem_cons_of_mem p hq)
      cases he : tokenEffect p with
      | error e => rw [foldTokens, he] at h; simp at h
      | ok o =>
          cases o with
          | none =>
              rw [foldTokens, he] at h
              exact ih d d2 hall2 h hd
          | some kv =>
              obtain ⟨k, v⟩ := kv
              rw [foldTokens, he] at h
              refine ih _ d2 hall2 h ?_
              rw [dictFind_dictSet]
              by_cases hk2 : "raw_value" = k
              · rw [if_pos hk2]
                rw [← hk2] at he
                rw [rawAssign_none p v (hall p (List.mem_cons_self p ps)) he]
              · rw [if_neg hk2]; exact hd

theorem foldTokens_raw_established (ps : List String) : ∀ d d2 : PyDict,
    (∀ p ∈ ps, tokenKey p = some "raw" → tokenVal p = some "N/A") →
    foldTokens d ps = .ok d2 →
    (∃ p ∈ ps, tokenKey p = some "raw" ∧ tokenVal p = some "N/A") →
    dictFind d2 "raw_value" = some PyVal.vNone := by
  induction ps with
  | nil => intro d d2 _ _ hex; simp at hex
  | cons p ps ih =>
      intro d d2 hall h hex
      have hall2 : ∀ q ∈ ps, tokenKey q = some "raw" → tokenVal q = some "N/A" :=
        fun q hq => hall q (List.mem_cons_of_mem p hq)
      rcases hex with ⟨q, hq, hqk, hqv⟩
      rcases List.mem_cons.mp hq with hq1 | hq2
      · subst hq1
        rw [foldTokens, rawNA_effect q hqk hqv] at h
        refine foldTokens_raw_preserved ps _ d2 hall2 h ?_
        rw [dictFind_dictSet, if_pos rfl]
      · cases he : tokenEffect p with
        | error e => rw [foldTokens, he] at h; simp at h
        | ok o =>
            cases o with
            | none =>
                rw [foldTokens, he] at h
                exact ih d d2 hall2 h ⟨q, hq2, hqk, hqv⟩
            | some kv =>
                obtain ⟨k, v⟩ := kv
                rw [foldTokens, he] at h
                exact ih _ d2 hall2 h ⟨q, hq2, hqk, hqv⟩

/-- C7 (counterexample): a later `RAW:5` token overrides the earlier
`RAW:N/A`, so a payload accepted by the delimited format that contains a
`RAW:N/A` token can still end with `raw_value` present (5), not absent. -/
theorem raw_na_override_cex :
    parse_data "RAW:N/A, RAW:5" = some [("raw_value", PyVal.vInt 5)] ∧
    pyTruthy (parse_data "RAW:N/A, RAW:5") = true :=
  ⟨by decide, by decide⟩

/-- C7 (amended): for every payload accepted by the delimited format in
which some token has key `raw` with value `N/A` and every token with key
`raw` has value `N/A` (in particular when `RAW` occurs exactly once), the
resulting record maps `raw_value` to an explicit `None`, regardless of the
other tokens' validity. -/
theorem raw_na_yields_absent (payload : String) (d : PyDict)
    (hnj : headIs obrace payload.data = false)
    (hacc : parse_data payload = some d)
    (hall : ∀ part ∈ (splitCommaSpace payload.data []).map String.mk,
        tokenKey part = some "raw" → tokenVal part = some "N/A")
    (hex : ∃ part ∈ (splitCommaSpace payload.data []).map String.mk,
        tokenKey part = some "raw" ∧ tokenVal part = some "N/A") :
    dictFind d "raw_value" = some PyVal.vNone := by
  have hft := parse_data_delimited_fold payload d hnj hacc
  exact foldTokens_raw_established _ [] d hall hft hex

/-- Witness for the amended C7 theorem on `RAW:N/A, RMS:xx` (a single raw
token with value `N/A` next to an ill-typed rms token). -/
theorem raw_na_yields_absent_witness :
    dictFind [("raw_value", PyVal.vNone), ("rms_value", PyVal.vNone)]
      "raw_value" = some PyVal.vNone := by
  refine raw_na_yields_absent "RAW:N/A, RMS:xx"
    [("raw_value", PyVal.vNone), ("rms_value", PyVal.vNone)]
    (by decide) (by decide) ?_ ?_
  · intro part hp
    have hsp : (splitCommaSpace "RAW:N/A, RMS:xx".data []).map String.mk
        = ["RAW:N/A", "RMS:xx"] := by decide
    rw [hsp] at hp
    simp only [List.mem_cons, List.not_mem_nil, or_false] at hp
    rcases hp with h | h <;> rw [h]
    · intro _; decide
    · intro hk; exact absurd hk (by decide)
  · refine ⟨"RAW:N/A", ?_, by decide, by decide⟩
    have hsp : (splitCommaSpace "RAW:N/A, RMS:xx".data []).map String.mk
        = ["RAW:N/A", "RMS:xx"] := by decide
    rw [hsp]
    exact List.mem_cons_self _ _

/-- C4 (counterexample): the rms literal `1.2.3` passes the source's
dot-stripping digit guard, so `float` raises inside `parse_data` and the
whole parse returns `None`; the payload is rejected instead of succeeding
with only `rms_value` absent. -/
theorem rms_multidot_aborts_parse_cex :
    parse_data "RAW:10, RMS:1.2.3" = none ∧
    pyTruthy (parse_data "RAW:10, RMS:1.2.3") = false :=
  ⟨by decide, by decide⟩

/-- C4 (amended): an ill-formed literal for raw, state or move yields only
that field absent with no error; for rms and for th, a literal whose
dot-stripped form is not all digits also yields just absence, but a
literal that passes that guard while containing two or more dots (such as
`1.2.3`) raises inside `float` and aborts the whole parse. -/
theorem field_coercion_tolerance :
    (∀ part value, tokenKey part = some "raw" → tokenVal part = some value →
       value ≠ "N/A" → pyIsDigit value = false →
       tokenEffect part = .ok (some ("raw_value", PyVal.vNone))) ∧
    (∀ part value, tokenKey part = some "state" → tokenVal part = some value →
       value ≠ "N/A" → pyIsDigit value = false →
       tokenEffect part = .ok (some ("state", PyVal.vNone))) ∧
    (∀ part value, tokenKey part = some "move" → tokenVal part = some value →
       value ≠ "N/A" → pyIsDigit value = false →
       tokenEffect part = .ok (some ("movement_count", PyVal.vNone))) ∧
    (∀ part value, tokenKey part = some "rms" → tokenVal part = some value →
       value ≠ "N/A" →
       pyIsDigit (String.mk (value.data.filter (fun c => c ≠ '.'))) = false →
       tokenEffect part = .ok (some ("rms_value", PyVal.vNone))) ∧
    (∀ part value, tokenKey part = some "rms" → tokenVal part = some value →
       value ≠ "N/A" →
       pyIsDigit (String.mk (value.data.filter (fun c => c ≠ '.'))) = true →
       2 ≤ dotCount value → tokenEffect part = .error ()) ∧
    (∀ part value, tokenKey part = some "th" → tokenVal part = some value →
       value ≠ "N/A" →
       pyIsDigit (String.mk (value.data.filter (fun c => c ≠ '.'))) = false →
       tokenEffect part = .ok (some ("threshold_value", PyVal.vNone))) ∧
    (∀ part value, tokenKey part = some "th" → tokenVal part = some value →
       value ≠ "N/A" →
       pyIsDigit (String.mk (value.data.filter (fun c => c ≠ '.'))) = true →
       2 ≤ dotCount value → tokenEffect part = .error ()) := by
  refine ⟨?_, ?_, ?_, ?_, ?_, ?_, ?_⟩
  · intro part value hk hv hne hdig
    simp only [tokenEffect, hk, hv]
    rw [if_neg hne, if_pos trivial]
    simp [intOrNone, hdig]
  · intro part value hk hv hne hdig
    simp only [tokenEffect, hk, hv]
    rw [if_neg hne, if_neg (by decide), if_neg (by decide), if_neg (by decide),
      if_pos trivial]
    simp [intOrNone, hdig]
  · intro part value hk hv hne hdig
    simp only [tokenEffect, hk, hv]
    rw [if_neg hne, if_neg (by decide), if_neg (by decide), if_neg (by decide),
      if_neg (by decide), if_pos trivial]
    simp [intOrNone, hdig]
  · intro part value hk hv hne hdig
    simp only [tokenEffect, hk, hv]
    rw [if_neg hne, if_neg (by decide), if_pos trivial]
    simp only [ne_eq, decide_not] at hdig
    simp [floatOrNone, hdig, Except.map]
  · intro part value hk hv hne hdig hdots
    simp only [tokenEffect, hk, hv]
    rw [if_neg hne, if_neg (by decide), if_pos trivial]
    simp only [ne_eq, decide_not] at hdig
    have hgt : ¬ dotCount value ≤ 1 := by omega
    simp [floatOrNone, hdig, pyFloatGuarded, hgt, Except.map]
  · intro part value hk hv hne hdig
    simp only [tokenEffect, hk, hv]
    rw [if_neg hne, if_neg (by decide), if_neg (by decide), if_pos trivial]
    simp only [ne_eq, decide_not] at hdig
    simp [floatOrNone, hdig, Except.map]
  · intro part value hk hv hne hdig hdots
    simp only [tokenEffect, hk, hv]
    rw [if_neg hne, if_neg (by decide), if_neg (by decide), if_pos trivial]
    simp only [ne_eq, decide_not] at hdig
    have hgt : ¬ dotCount value ≤ 1 := by omega
    simp [floatOrNone, hdig, pyFloatGuarded, hgt, Except.map]

/-- Witness for the amended C4 theorem at concrete ill-formed literals for
every covered key, including th. -/
theorem field_coercion_tolerance_witness :
    tokenEffect "RAW:abc" = .ok (some ("raw_value", PyVal.vNone)) ∧
    tokenEffect "STATE:x" = .ok (some ("state", PyVal.vNone)) ∧
    tokenEffect "MOVE:x" = .ok (some ("movement_count", PyVal.vNone)) ∧
    tokenEffect "RMS:xx" = .ok (some ("rms_value", PyVal.vNone)) ∧
    tokenEffect "RMS:1.2.3" = .error () ∧
    tokenEffect "TH:xx" = .ok (some ("threshold_value", PyVal.vNone)) ∧
    tokenEffect "TH:1.2.3" = .error () :=
  ⟨field_coercion_tolerance.1 "RAW:abc" "abc" (by decide) (by decide)
     (by decide) (by decide),
   field_coercion_tolerance.2.1 "STATE:x" "x" (by decide) (by decide)
     (by decide) (by decide),
   field_coercion_tolerance.2.2.1 "MOVE:x" "x" (by decide) (by decide)
     (by decide) (by decide),
   field_coercion_tolerance.2.2.2.1 "RMS:xx" "xx" (by decide) (by decide)
     (by decide) (by decide),
   field_coercion_tolerance.2.2.2.2.1 "RMS:1.2.3" "1.2.3" (by decide)
     (by decide) (by decide) (by decide) (by decide),
   field_coercion_tolerance.2.2.2.2.2.1 "TH:xx" "xx" (by decide) (by decide)
     (by decide) (by decide),
   field_coercion_tolerance.2.2.2.2.2.2 "TH:1.2.3" "1.2.3" (by decide)
     (by decide) (by decide) (by decide) (by decide)⟩
